import Mathlib

/-!
# GrowthBrief scoring and signal engine: a shallow embedding

This file embeds the core of the `growthbrief` repository — the
rank-normalization / composite-scoring engine (`src/growthbrief/scoring.py`)
and the rolling signal engine (`src/growthbrief/signals.py`) — as executable
Lean definitions, and proves (or refutes) the specification's claims about it.

Modelling conventions:
* a pandas `Series` cell is `Option ℚ`; `none` is the NaN ("undefined") marker;
  exact rational arithmetic stands in for IEEE doubles;
* a `DataFrame` is a `Frame`: a row count plus an ordered association list of
  named columns (pandas preserves column insertion order, and assigning to a
  fresh column name appends it at the end);
* library behaviour relied on by the source is embedded per its documented
  semantics, noted at each definition (`np.nanpercentile` linear
  interpolation, `scipy.stats.rankdata` average ties with its default
  `nan_policy='propagate'`, pandas `clip` / skip-NaN reductions, rolling
  windows with `min_periods = window`).
-/

/- Batteries seals the `Rat` field operations behind `@[irreducible]`, which
blocks kernel evaluation of concrete rational arithmetic. The embedding is
executable, so we restore reducibility to let `decide` settle concrete runs. -/
set_option allowUnsafeReducibility true

attribute [semireducible] Rat.add Rat.mul Rat.sub Rat.inv Rat.ofScientific

set_option maxRecDepth 100000

/-- A pandas cell: `none` models NaN. -/
abbrev Val := Option ℚ

/-- A pandas Series (one column), positionally indexed. -/
abbrev Col := List Val

/-! ## Sorting (ascending insertion sort, used by the percentile embedding) -/

/-- Insert `x` into a (sorted) list, keeping ascending order. -/
def insertAsc (x : ℚ) : List ℚ → List ℚ
  | [] => [x]
  | y :: ys => if x ≤ y then x :: y :: ys else y :: insertAsc x ys

/-- Ascending sort of a list of rationals. -/
def sortQ (l : List ℚ) : List ℚ := l.foldr insertAsc []

/-! ## `np.nanpercentile` with the default linear interpolation -/

/-- `np.nanpercentile(xs, q)` on the already-NaN-free list `xs`, with numpy's
default linear interpolation: with `s` the ascending sort of `xs`,
`n = |s|` and `h = (n-1)·q/100`, the result is
`s[⌊h⌋] + (h - ⌊h⌋)·(s[⌊h⌋+1] - s[⌊h⌋])` (upper index clamped to `n-1`).
On an empty list numpy emits a `RuntimeWarning` and returns NaN (`none`);
it does not raise. -/
def percentileLinear (xs : List ℚ) (q : ℚ) : Option ℚ :=
  let s := sortQ xs
  if s.isEmpty then none
  else
    let n := s.length
    let h : ℚ := ((n : ℚ) - 1) * q / 100
    let i : ℕ := (⌊h⌋).toNat
    let lo := s.getD i 0
    let hi := s.getD (min (i + 1) (n - 1)) 0
    some (lo + (h - (i : ℚ)) * (hi - lo))

/-- pandas `Series.clip(lower, upper)` on one defined cell: the lower bound is
applied first (`max`), then the upper bound (`min`); a NaN bound is no bound.
NaN cells are never clipped (comparisons with NaN are false), which the
callers model by mapping `clipVal` under `Option.map`. -/
def clipVal (lo hi : Option ℚ) (x : ℚ) : ℚ :=
  let x1 := match lo with
    | some l => max x l
    | none => x
  match hi with
  | some h => min x1 h
  | none => x1

/-- `winsorize_series(series, lower_bound, upper_bound)`
(`scoring.py` lines 18–24): clip the series to the `lower_bound`/`upper_bound`
percentiles of its defined values (`np.nanpercentile(series.dropna(), b)`).
The source's default bounds are `lower_bound = 1`, `upper_bound = 99`. -/
def winsorize_series (series : Col) (lower_bound upper_bound : ℚ) : Col :=
  let dropna := series.filterMap id
  let lower_value := percentileLinear dropna lower_bound
  let upper_value := percentileLinear dropna upper_bound
  series.map (Option.map (clipVal lower_value upper_value))

/-! ## `scipy.stats.rankdata` and `pct_rank` -/

/-- `scipy.stats.rankdata(xs, method='average')` on a NaN-free list: the rank
of `x` is `#{y | y < x} + (#{y | y = x} + 1)/2` (ties get the mean of the
positions they would occupy; rank 1 is the smallest value). -/
def rankdata_avg (xs : List ℚ) : List ℚ :=
  xs.map (fun x =>
    ((xs.countP (fun y => decide (y < x)) : ℚ)
      + ((xs.countP (fun y => decide (y = x)) : ℚ) + 1) / 2))

/-- `scipy.stats.rankdata(series, method='average')` on a column that may hold
NaN. scipy's default `nan_policy='propagate'` makes the whole output NaN as
soon as any input entry is NaN; otherwise ranks are the average-tie ranks. -/
def rankdata (series : Col) : Col :=
  if series.any (fun v => v.isNone) then series.map (fun _ => none)
  else (rankdata_avg (series.filterMap id)).map some

/-- `pct_rank(series)` (`scoring.py` lines 12–16):
`rankdata(series, method='average') / len(series) * 100` — note the divisor is
the total length of the series, NaN entries included. -/
def pct_rank (series : Col) : Col :=
  (rankdata series).map (Option.map (fun r => r / (series.length : ℚ) * 100))

/-! ## Rounding (numpy/pandas `.round(1)`: round half to even) -/

/-- Round a rational to the nearest integer, halves to the even neighbour
(numpy's rounding rule). -/
def roundHalfEven (x : ℚ) : ℤ :=
  let f := ⌊x⌋
  let r := x - (f : ℚ)
  if r < 1/2 then f
  else if 1/2 < r then f + 1
  else if f % 2 = 0 then f else f + 1

/-- pandas `.round(1)`: round to one decimal place. -/
def round1 (x : ℚ) : ℚ := ((roundHalfEven (x * 10) : ℤ) : ℚ) / 10

/-! ## DataFrames -/

/-- A pandas DataFrame: a row count and an ordered association list of named
columns (pandas preserves column insertion order). -/
structure Frame where
  nrows : ℕ
  cols : List (String × Col)
deriving DecidableEq

/-- `name in df.columns`. -/
def Frame.hasCol (f : Frame) (name : String) : Bool :=
  f.cols.any (fun p => p.1 == name)

/-- `df[name]` (reading): the first column stored under `name`
(the empty column if absent — callers guard with `hasCol`). -/
def Frame.get (f : Frame) (name : String) : Col :=
  ((f.cols.find? (fun p => p.1 == name)).map Prod.snd).getD []

/-- `df[name] = c` (writing): replace the column if the name exists, else
append a new column at the end, as pandas column assignment does. -/
def Frame.set (f : Frame) (name : String) (c : Col) : Frame :=
  if f.hasCol name then
    ⟨f.nrows, f.cols.map (fun p => if p.1 == name then (p.1, c) else p)⟩
  else
    ⟨f.nrows, f.cols ++ [(name, c)]⟩

/-- Well-formedness: every column has exactly `nrows` entries. -/
def Frame.wf (f : Frame) : Bool :=
  f.cols.all (fun p => p.2.length == f.nrows)

/-! ## Row-wise pandas reductions -/

/-- One row of `pd.concat(cols, axis=1).mean(axis=1)`: the mean of the
defined entries, NaN when none is defined. -/
def rowMean (vals : List Val) : Val :=
  let d := vals.filterMap id
  if d.length = 0 then none else some (d.sum / (d.length : ℚ))

/-- `pd.concat(cols, axis=1).mean(axis=1)`: per-row mean over the listed
columns, skipping NaN (pandas default `skipna=True`). -/
def meanAcross (cols : List Col) (n : ℕ) : Col :=
  (List.range n).map (fun i => rowMean (cols.map (fun c => c.getD i none)))

/-- One row of `pd.concat(cols, axis=1).sum(axis=1)`: pandas sums the defined
entries with `skipna=True` and `min_count=0`, so an all-NaN row sums to `0`,
not NaN. -/
def rowSum (vals : List Val) : Val :=
  some (vals.filterMap id).sum

/-- `pd.concat(cols, axis=1).sum(axis=1)`: per-row skip-NaN sum. -/
def sumAcross (cols : List Col) (n : ℕ) : Col :=
  (List.range n).map (fun i => rowSum (cols.map (fun c => c.getD i none)))

/-! ## `score_grs` (`scoring.py` lines 26–111) -/

/-- The category weights `WEIGHTS` (`scoring.py` lines 42–48). -/
def WEIGHTS : List (String × ℚ) :=
  [("FM", 30/100), ("Q", 20/100), ("VG", 20/100), ("IT", 15/100), ("TC", 15/100)]

/-- `FEATURE_MAPPING` (`scoring.py` lines 52–58): per category, the member
features and their direction (1 = higher is better, -1 = lower is better).
Python dicts iterate in insertion order. -/
def FEATURE_MAPPING : List (String × List (String × Int)) :=
  [ ("FM", [("rev_yoy", 1), ("gm_delta", 1), ("om_delta", 1), ("fcf_delta", 1)]),
    ("Q", [("roa_proxy", 1), ("cash_conversion", 1), ("accruals_proxy", -1)]),
    ("VG", [("pe", -1), ("ev_sales", -1), ("ev_sales_zscore", -1), ("peg_proxy", -1)]),
    ("IT", [("sector_rs_6m", 1), ("sector_rs_12m", 1), ("sector_above_50dma", 1),
            ("sector_above_200dma", 1)]),
    ("TC", [("above_50dma", 1), ("above_100dma", 1), ("above_200dma", 1),
            ("6m_momentum", 1), ("max_drawdown_1y", 1)]) ]

/-- The inner loop body of `score_grs` for one feature (`scoring.py`
lines 73–88): if the feature column exists, negate it when lower is better,
winsorize with the source's default bounds (1, 99), and percentile-rank;
otherwise contribute an all-NaN column. -/
def featureRank (df : Frame) (feature : String) (direction : Int) : Col :=
  if df.hasCol feature then
    let series := df.get feature
    let series := if direction = -1 then series.map (Option.map (fun x => -x)) else series
    let series_winsorized := winsorize_series series 1 99
    pct_rank series_winsorized
  else
    List.replicate df.nrows none

/-- The per-category sub-score (`scoring.py` lines 71–94): the skip-NaN
row mean of the member features' percentile ranks. -/
def componentScore (df : Frame) (features : List (String × Int)) : Col :=
  let component_scores := features.map (fun p => featureRank df p.1 p.2)
  meanAcross component_scores df.nrows

/-- `score_grs(df)` (`scoring.py` lines 26–111). Every statement
`df[c] = …` in the source assigns a column on the DataFrame object passed by
the caller (no copy is made anywhere), and `return df` returns that same
object; the returned frame is therefore also the post-call state of the
caller's argument (see `score_grs_inputAfterCall`). -/
def score_grs (df : Frame) : Frame :=
  -- line 61: df['GRS'] = np.nan
  let df := df.set "GRS" (List.replicate df.nrows none)
  -- lines 71–94: one sub-score column per category
  let df := FEATURE_MAPPING.foldl
    (fun df p => df.set (p.1 ++ "_score") (componentScore df p.2)) df
  -- lines 97–103: weighted category columns (NaN sub-score stays NaN)
  let grs_components := WEIGHTS.map (fun p =>
    if df.hasCol (p.1 ++ "_score") then
      (df.get (p.1 ++ "_score")).map (Option.map (fun s => s * p.2))
    else
      List.replicate df.nrows none)
  -- line 106: df['GRS'] = concat(...).sum(axis=1).round(1)
  let df := df.set "GRS" ((sumAcross grs_components df.nrows).map (Option.map round1))
  -- line 109: df['GRS'] = df['GRS'].clip(lower=0, upper=100)
  let df := df.set "GRS"
    ((df.get "GRS").map (Option.map (clipVal (some 0) (some 100))))
  df

/-- The state of the caller's DataFrame object after `score_grs(t)` returns:
the source mutates its argument in place (column assignments, no copy) and
returns it, so the argument's post-call state is exactly the returned frame. -/
def score_grs_inputAfterCall (t : Frame) : Frame := score_grs t

/-! ## The signal engine (`signals.py`) -/

/-- `series.rolling(window=w).mean()` (`signals.py` lines 21–23): with the
pandas default `min_periods = window`, entry `t` is defined only when the
trailing window of `w` observations exists (`t + 1 ≥ w`) and holds no NaN,
and is then the mean of those `w` values. -/
def rollingMean (w : ℕ) (l : Col) : Col :=
  (List.range l.length).map (fun t =>
    if t + 1 < w then none
    else
      let win := (l.drop (t + 1 - w)).take w
      if win.all (fun v => v.isSome) then
        some ((win.filterMap id).sum / (w : ℚ))
      else none)

/-- Elementwise `>` between pandas series: any comparison with NaN is false. -/
def gtNaN : Val → Val → Bool
  | some a, some b => decide (a > b)
  | _, _ => false

/-- `(ticker_prices > signals['SMA100']).astype(int)` (`signals.py`
line 33): an integer 0/1 column; `astype(int)` leaves no NaN. -/
def is_uptrend (prices : Col) : List ℤ :=
  (prices.zip (rollingMean 100 prices)).map (fun pm => if gtNaN pm.1 pm.2 then 1 else 0)

/-- `ticker_prices.pct_change()` (`signals.py` line 29): entry `t` is
`price[t]/price[t-1] - 1`; the first entry is NaN, as is any entry whose
operands are NaN. -/
def pctChange (l : Col) : Col :=
  (List.range l.length).map (fun t =>
    if t = 0 then none
    else
      match l.getD (t - 1) none, l.getD t none with
      | some p0, some p1 => some (p1 / p0 - 1)
      | _, _ => none)

/-- The sample variance (pandas `std` default `ddof=1`, squared) of a list:
`Σ (x − mean)² / (n − 1)`. -/
def sampleVar (xs : List ℚ) : ℚ :=
  let n := xs.length
  let m := xs.sum / (n : ℚ)
  (xs.map (fun x => (x - m) ^ 2)).sum / ((n : ℚ) - 1)

/-- `series.rolling(window=w).std()` squared: defined exactly where the
rolling window of `w` NaN-free observations exists, with value the sample
variance (`ddof=1`) of that window. -/
def rollingVarS (w : ℕ) (l : Col) : Col :=
  (List.range l.length).map (fun t =>
    if t + 1 < w then none
    else
      let win := (l.drop (t + 1 - w)).take w
      if win.all (fun v => v.isSome) then
        some (sampleVar (win.filterMap id))
      else none)

/-- The square of `signals['20d_volatility']` (`signals.py` lines 29–30,
`daily_returns.rolling(window=20).std() * np.sqrt(252)`): the source's cell
is `√(sampleVar · 252)`, an irrational real; the embedding tracks its square
`sampleVar · 252`, which carries the same definedness and determines the
(nonnegative) source value uniquely. -/
def vol20d_sq (prices : Col) : Col :=
  (rollingVarS 20 (pctChange prices)).map (Option.map (fun v => v * 252))

/-! ## Statement helpers -/

/-- The contribution of one category to the GRS sum: `0` when the sub-score
is undefined, `subscore × weight` when defined. -/
def wContrib (w : ℚ) (v : Val) : ℚ := v.elim 0 (fun s => s * w)

/-- The percentile-rank column of any strictly increasing fully defined
5-entry column: ranks `1..5` scaled by `rank/5 × 100`. -/
def ladderCol : Col := [some 20, some 40, some 60, some 80, some 100]

/-- A concrete 5-ticker feature table in which ticker `i+1` strictly
dominates ticker `i` on every feature in the directionally correct sense
(ascending `1..5` on higher-is-better features, descending `5..1` on
lower-is-better ones). -/
def ladderFrame : Frame :=
  ⟨5,
    [ ("rev_yoy", [some 1, some 2, some 3, some 4, some 5]),
      ("gm_delta", [some 1, some 2, some 3, some 4, some 5]),
      ("om_delta", [some 1, some 2, some 3, some 4, some 5]),
      ("fcf_delta", [some 1, some 2, some 3, some 4, some 5]),
      ("roa_proxy", [some 1, some 2, some 3, some 4, some 5]),
      ("cash_conversion", [some 1, some 2, some 3, some 4, some 5]),
      ("accruals_proxy", [some 5, some 4, some 3, some 2, some 1]),
      ("pe", [some 5, some 4, some 3, some 2, some 1]),
      ("ev_sales", [some 5, some 4, some 3, some 2, some 1]),
      ("ev_sales_zscore", [some 5, some 4, some 3, some 2, some 1]),
      ("peg_proxy", [some 5, some 4, some 3, some 2, some 1]),
      ("sector_rs_6m", [some 1, some 2, some 3, some 4, some 5]),
      ("sector_rs_12m", [some 1, some 2, some 3, some 4, some 5]),
      ("sector_above_50dma", [some 1, some 2, some 3, some 4, some 5]),
      ("sector_above_200dma", [some 1, some 2, some 3, some 4, some 5]),
      ("above_50dma", [some 1, some 2, some 3, some 4, some 5]),
      ("above_100dma", [some 1, some 2, some 3, some 4, some 5]),
      ("above_200dma", [some 1, some 2, some 3, some 4, some 5]),
      ("6m_momentum", [some 1, some 2, some 3, some 4, some 5]),
      ("max_drawdown_1y", [some 1, some 2, some 3, some 4, some 5]) ] ⟩

/-- A fully defined 5-entry column that is strictly increasing. -/
def StrictAsc (l : Col) : Prop :=
  ∃ a b c d e : ℚ, l = [some a, some b, some c, some d, some e]
    ∧ a < b ∧ b < c ∧ c < d ∧ d < e

/-- A fully defined 5-entry column that is strictly decreasing. -/
def StrictDesc (l : Col) : Prop :=
  ∃ a b c d e : ℚ, l = [some a, some b, some c, some d, some e]
    ∧ b < a ∧ c < b ∧ d < c ∧ e < d

/-- A 5-row frame in which every scored feature is present and each ticker
strictly dominates its predecessor in the feature's registered direction:
increasing for higher-is-better features, decreasing for lower-is-better
features. -/
def DominanceLadder (df : Frame) : Prop :=
  df.nrows = 5 ∧
  ∀ cf ∈ FEATURE_MAPPING, ∀ p ∈ cf.2,
    df.hasCol p.1 = true ∧
      (if p.2 = -1 then StrictDesc (df.get p.1) else StrictAsc (df.get p.1))

/-! ## Frame access lemmas -/

theorem Frame.nrows_set (f : Frame) (n : String) (c : Col) :
    (f.set n c).nrows = f.nrows := by
  unfold Frame.set
  split <;> rfl

private theorem find?_map_replace (l : List (String × Col)) (n : String) (c : Col)
    (h : l.any (fun p => p.1 == n) = true) :
    ((l.map (fun p => if p.1 == n then (p.1, c) else p)).find?
        (fun p => p.1 == n)).map Prod.snd = some c := by
  induction l with
  | nil => simp at h
  | cons p t ih =>
    by_cases hp : p.1 == n
    · simp [List.find?, hp]
    · have ht : t.any (fun p => p.1 == n) = true := by
        simpa [List.any_cons, hp] using h
      simpa [List.find?, hp] using ih ht

private theorem find?_append_same (l : List (String × Col)) (n : String) (c : Col)
    (h : l.any (fun p => p.1 == n) = false) :
    ((l ++ [(n, c)]).find? (fun p => p.1 == n)).map Prod.snd = some c := by
  induction l with
  | nil => simp [List.find?]
  | cons p t ih =>
    have hp : (p.1 == n) = false := by
      by_contra hc
      simp [List.any_cons, eq_true_of_ne_false hc] at h
    have ht : t.any (fun p => p.1 == n) = false := by
      simpa [List.any_cons, hp] using h
    simpa [List.find?, hp] using ih ht

theorem Frame.get_set_self (f : Frame) (n : String) (c : Col) :
    (f.set n c).get n = c := by
  unfold Frame.set Frame.get Frame.hasCol
  split
  · rename_i h
    simp only [find?_map_replace f.cols n c h, Option.getD_some]
  · rename_i h
    simp only [find?_append_same f.cols n c (Bool.eq_false_iff.2 h), Option.getD_some]

private theorem find?_map_replace_ne (l : List (String × Col)) (n m : String) (c : Col)
    (hnm : (m == n) = false) :
    (l.map (fun p => if p.1 == n then (p.1, c) else p)).find? (fun p => p.1 == m)
      = l.find? (fun p => p.1 == m) := by
  induction l with
  | nil => rfl
  | cons q t ih =>
    simp only [List.map_cons]
    by_cases hqn : q.1 == n
    · have hq : q.1 = n := by simpa using hqn
      have hqm : (q.1 == m) = false := by
        subst hq
        simpa [BEq.comm] using hnm
      rw [if_pos hqn, List.find?_cons_of_neg, List.find?_cons_of_neg, ih]
      · simp [hqm]
      · simp [hqm]
    · rw [if_neg hqn]
      by_cases hqm : q.1 == m
      · rw [List.find?_cons_of_pos, List.find?_cons_of_pos] <;> simp [hqm]
      · rw [List.find?_cons_of_neg, List.find?_cons_of_neg, ih]
        · simp [hqm]
        · simp [hqm]

private theorem find?_append_ne (l : List (String × Col)) (n m : String) (c : Col)
    (hnm : (m == n) = false) :
    (l ++ [(n, c)]).find? (fun p => p.1 == m) = l.find? (fun p => p.1 == m) := by
  induction l with
  | nil =>
    have : (n == m) = false := by simpa [BEq.comm] using hnm
    simp [List.find?, this]
  | cons p t ih =>
    by_cases hpm : p.1 == m
    · simp [List.find?, hpm]
    · simp [List.find?, hpm, ih]

theorem Frame.get_set_ne (f : Frame) (n m : String) (c : Col)
    (hnm : (m == n) = false) : (f.set n c).get m = f.get m := by
  unfold Frame.set Frame.get
  split
  · simp only [find?_map_replace_ne f.cols n m c hnm]
  · simp only [find?_append_ne f.cols n m c hnm]

theorem Frame.hasCol_set (f : Frame) (n m : String) (c : Col) :
    (f.set n c).hasCol m = (m == n || f.hasCol m) := by
  unfold Frame.set Frame.hasCol
  split
  · rename_i h
    by_cases hmn : (m == n)
    · have hmn' : m = n := by simpa using hmn
      subst hmn'
      simp only [hmn, Bool.true_or]
      simp only [List.any_map, Function.comp]
      refine List.any_eq_true.2 ?_
      obtain ⟨p, hp, hp1⟩ := List.any_eq_true.1 h
      refine ⟨p, hp, ?_⟩
      simp only [Function.comp_apply]
      split <;> simpa using hp1
    · simp only [hmn, Bool.false_or]
      simp only [List.any_map, Function.comp]
      congr 1
      funext p
      simp only [Function.comp_apply]
      split
      · rename_i hpn
        have : p.1 = n := by simpa using hpn
        simp [this]
      · rfl
  · simp [List.any_append, List.any_cons, BEq.comm (a := n) (b := m), Bool.or_comm]

/-! ## List access helpers -/

theorem getD_map_opt (f : ℚ → ℚ) (l : Col) (i : ℕ) :
    (l.map (Option.map f)).getD i none = Option.map f (l.getD i none) := by
  simp only [List.getD_eq_getElem?_getD, List.getElem?_map]
  cases l[i]? <;> rfl

theorem getD_map_range (f : ℕ → Val) (n i : ℕ) (h : i < n) :
    ((List.range n).map f).getD i none = f i := by
  simp only [List.getD_eq_getElem?_getD, List.getElem?_map, List.getElem?_range h,
    Option.map_some', Option.getD_some]

theorem getD_of_length_le (l : Col) (i : ℕ) (h : l.length ≤ i) :
    l.getD i none = none := by
  simp only [List.getD_eq_getElem?_getD, List.getElem?_eq_none h, Option.getD_none]

theorem sum_filterMap_id (l : List Val) :
    (l.filterMap id).sum = (l.map (fun o => o.elim 0 id)).sum := by
  induction l with
  | nil => rfl
  | cons o t ih => cases o <;> simp [List.filterMap_cons, ih]

theorem elim_map_mul (w : ℚ) (o : Val) :
    (Option.map (fun s => s * w) o).elim 0 id = wContrib w o := by
  cases o <;> rfl

/-! ## Structural facts about `score_grs` -/

theorem score_grs_nrows (df : Frame) : (score_grs df).nrows = df.nrows := by
  unfold score_grs
  simp only [FEATURE_MAPPING, List.foldl_cons, List.foldl_nil, Frame.nrows_set]

theorem score_grs_hasCol_scores (df : Frame) :
    (score_grs df).hasCol "GRS" = true
      ∧ (score_grs df).hasCol "FM_score" = true
      ∧ (score_grs df).hasCol "Q_score" = true
      ∧ (score_grs df).hasCol "VG_score" = true
      ∧ (score_grs df).hasCol "IT_score" = true
      ∧ (score_grs df).hasCol "TC_score" = true := by
  unfold score_grs
  simp only [FEATURE_MAPPING, List.foldl_cons, List.foldl_nil]
  simp [Frame.hasCol_set]

theorem score_grs_GRS_length (df : Frame) :
    ((score_grs df).get "GRS").length = df.nrows := by
  unfold score_grs
  simp only [FEATURE_MAPPING, WEIGHTS, List.foldl_cons, List.foldl_nil]
  rw [Frame.get_set_self]
  rw [Frame.get_set_self]
  simp [sumAcross, Frame.nrows_set]

private theorem scoreName_FM : "FM" ++ "_score" = "FM_score" := rfl

private theorem scoreName_Q : "Q" ++ "_score" = "Q_score" := rfl

private theorem scoreName_VG : "VG" ++ "_score" = "VG_score" := rfl

private theorem scoreName_IT : "IT" ++ "_score" = "IT_score" := rfl

private theorem scoreName_TC : "TC" ++ "_score" = "TC_score" := rfl

set_option maxHeartbeats 2000000 in
/-- The central computation of `score_grs`: row `i` of the `GRS` column is
the weighted skip-NaN sum of the five category sub-scores of that row,
rounded to one decimal and clipped to `[0, 100]`; categories with an
undefined sub-score contribute `0` to the sum and no weight renormalization
happens. -/
theorem score_grs_GRS_entry (df : Frame) (i : ℕ) (h : i < df.nrows) :
    ((score_grs df).get "GRS").getD i none
      = some (clipVal (some 0) (some 100) (round1
          (wContrib (30/100) (((score_grs df).get "FM_score").getD i none)
            + wContrib (20/100) (((score_grs df).get "Q_score").getD i none)
            + wContrib (20/100) (((score_grs df).get "VG_score").getD i none)
            + wContrib (15/100) (((score_grs df).get "IT_score").getD i none)
            + wContrib (15/100) (((score_grs df).get "TC_score").getD i none)))) := by
  unfold score_grs
  simp only [FEATURE_MAPPING, WEIGHTS, List.foldl_cons, List.foldl_nil,
    List.map_cons, List.map_nil, scoreName_FM, scoreName_Q, scoreName_VG,
    scoreName_IT, scoreName_TC]
  simp only [Frame.get_set_self, Frame.get_set_ne, Frame.hasCol_set,
    Frame.nrows_set, String.reduceBEq, Bool.false_or, Bool.or_false,
    Bool.or_true, Bool.true_or, if_true, if_false]
  rw [getD_map_opt, getD_map_opt]
  unfold sumAcross
  rw [getD_map_range _ _ _ h]
  unfold rowSum
  rw [sum_filterMap_id]
  simp only [List.map_cons, List.map_nil, List.sum_cons, List.sum_nil,
    getD_map_opt, elim_map_mul, Option.map_some']
  congr 2
  ring_nf

/-! ## Bounds of clipped, rounded values -/

theorem clipVal_some (lo hi x : ℚ) :
    clipVal (some lo) (some hi) x = min (max x lo) hi := rfl

theorem clip_round_nonneg (y : ℚ) : 0 ≤ clipVal (some 0) (some 100) y := by
  rw [clipVal_some]
  exact le_min (le_max_right _ _) (by norm_num)

theorem clip_round_le (y : ℚ) : clipVal (some 0) (some 100) y ≤ 100 := by
  rw [clipVal_some]
  exact min_le_right _ _

theorem round1_decimal (y : ℚ) : ∃ k : ℤ, round1 y * 10 = (k : ℚ) := by
  refine ⟨roundHalfEven (y * 10), ?_⟩
  unfold round1
  field_simp

theorem clip_round1_decimal (y : ℚ) :
    ∃ k : ℤ, clipVal (some 0) (some 100) (round1 y) * 10 = (k : ℚ) := by
  obtain ⟨k, hk⟩ := round1_decimal y
  rw [clipVal_some]
  rcases max_choice (round1 y) 0 with h | h <;> rw [h]
  · rcases min_choice (round1 y) 100 with h2 | h2 <;> rw [h2]
    · exact ⟨k, hk⟩
    · exact ⟨1000, by norm_num⟩
  · rcases min_choice (0 : ℚ) 100 with h2 | h2 <;> rw [h2]
    · exact ⟨0, by norm_num⟩
    · exact ⟨1000, by norm_num⟩

/-! ## Well-formedness preservation -/

theorem Frame.wf_set (f : Frame) (n : String) (c : Col)
    (hw : f.wf = true) (hc : c.length = f.nrows) : (f.set n c).wf = true := by
  unfold Frame.wf Frame.set at *
  split
  · simp only [List.all_map, List.all_eq_true, Function.comp_apply]
    intro p hp
    split
    · simpa using hc
    · exact List.all_eq_true.1 hw p hp
  · simp only [List.all_append, List.all_cons, List.all_nil, Bool.and_true,
      Bool.and_eq_true]
    exact ⟨hw, by simpa using hc⟩

theorem componentScore_length (df : Frame) (features : List (String × Int)) :
    (componentScore df features).length = df.nrows := by
  simp [componentScore, meanAcross]

set_option maxHeartbeats 1000000 in
theorem score_grs_wf (df : Frame) (hw : df.wf = true) :
    (score_grs df).wf = true := by
  unfold score_grs
  simp only [FEATURE_MAPPING, WEIGHTS, List.foldl_cons, List.foldl_nil,
    List.map_cons, List.map_nil, scoreName_FM, scoreName_Q, scoreName_VG,
    scoreName_IT, scoreName_TC]
  refine Frame.wf_set _ _ _ (Frame.wf_set _ _ _ ?_ ?_) ?_
  · refine Frame.wf_set _ _ _ (Frame.wf_set _ _ _ (Frame.wf_set _ _ _
      (Frame.wf_set _ _ _ (Frame.wf_set _ _ _ (Frame.wf_set _ _ _ hw ?_) ?_) ?_) ?_) ?_) ?_
    · simp
    · simp [componentScore_length, Frame.nrows_set]
    · simp [componentScore_length, Frame.nrows_set]
    · simp [componentScore_length, Frame.nrows_set]
    · simp [componentScore_length, Frame.nrows_set]
    · simp [componentScore_length, Frame.nrows_set]
  · simp [sumAcross, Frame.nrows_set]
  · simp [Frame.get_set_self, sumAcross, Frame.nrows_set]

/-! ## Claim theorems -/

/-- C1 (code bug): at the repository's own test input `[10, 20, 10, 30, NaN]`
(`test_pct_rank`), `pct_rank` does not keep the defined entries defined with
percentile `rank / count_of_defined × 100`: under scipy's default
`nan_policy='propagate'` the whole output column is NaN (and under pre-1.10
scipy the NaN would receive the synthetic rank 5 with divisor 5, giving
`[30, 60, 30, 80, 100]`); the claimed/tested output `[37.5, 75, 37.5, 100, NaN]`
is not produced. -/
theorem pct_rank_nan_failing_input :
    pct_rank [some 10, some 20, some 10, some 30, none]
        = [none, none, none, none, none]
      ∧ pct_rank [some 10, some 20, some 10, some 30, none]
        ≠ [some (75/2), some 75, some (75/2), some 100, none] := by
  exact ⟨by decide, by decide⟩

/-- C2: row `i` of the `GRS` column equals the weighted sum of the category
sub-scores over exactly the categories whose sub-score is defined for that
row (undefined sub-scores contribute `0`; weights `0.30, 0.20, 0.20, 0.15,
0.15` are not renormalized), rounded to one decimal and clipped to
`[0, 100]`; and a row with all five sub-scores undefined gets `GRS = 0`,
not NaN. -/
theorem grs_weighted_sum_over_defined (df : Frame) (i : ℕ) (h : i < df.nrows) :
    (((score_grs df).get "GRS").getD i none
        = some (clipVal (some 0) (some 100) (round1
            (wContrib (30/100) (((score_grs df).get "FM_score").getD i none)
              + wContrib (20/100) (((score_grs df).get "Q_score").getD i none)
              + wContrib (20/100) (((score_grs df).get "VG_score").getD i none)
              + wContrib (15/100) (((score_grs df).get "IT_score").getD i none)
              + wContrib (15/100) (((score_grs df).get "TC_score").getD i none)))))
    ∧ ((((score_grs df).get "FM_score").getD i none = none
        ∧ ((score_grs df).get "Q_score").getD i none = none
        ∧ ((score_grs df).get "VG_score").getD i none = none
        ∧ ((score_grs df).get "IT_score").getD i none = none
        ∧ ((score_grs df).get "TC_score").getD i none = none)
        → ((score_grs df).get "GRS").getD i none = some 0) := by
  refine ⟨score_grs_GRS_entry df i h, ?_⟩
  rintro ⟨h1, h2, h3, h4, h5⟩
  rw [score_grs_GRS_entry df i h, h1, h2, h3, h4, h5]
  norm_num [wContrib, round1, roundHalfEven, clipVal_some]

/-- Witness for C2 at a one-row frame with no feature columns: every
sub-score is undefined and the GRS is `0`. -/
theorem grs_weighted_sum_over_defined_witness :
    ((score_grs ⟨1, []⟩).get "GRS").getD 0 none = some 0 :=
  (grs_weighted_sum_over_defined ⟨1, []⟩ 0 (by decide)).2
    (by refine ⟨?_, ?_, ?_, ?_, ?_⟩ <;> decide)

/-- C4: on a zero-row frame (whatever feature columns are present),
`score_grs` returns a zero-row well-formed frame — the `GRS` column is
empty — carrying the `GRS` and five category score columns, and no error
path exists (`np.nanpercentile` on an empty array returns NaN with a
`RuntimeWarning`, it does not raise). -/
theorem scorer_empty_input (df : Frame) (h0 : df.nrows = 0) (hw : df.wf = true) :
    (score_grs df).nrows = 0
      ∧ (score_grs df).wf = true
      ∧ (score_grs df).get "GRS" = []
      ∧ (score_grs df).hasCol "GRS" = true
      ∧ (score_grs df).hasCol "FM_score" = true
      ∧ (score_grs df).hasCol "Q_score" = true
      ∧ (score_grs df).hasCol "VG_score" = true
      ∧ (score_grs df).hasCol "IT_score" = true
      ∧ (score_grs df).hasCol "TC_score" = true := by
  obtain ⟨hg, hfm, hq, hvg, hit, htc⟩ := score_grs_hasCol_scores df
  refine ⟨by rw [score_grs_nrows, h0], score_grs_wf df hw, ?_, hg, hfm, hq, hvg, hit, htc⟩
  have hl := score_grs_GRS_length df
  rw [h0] at hl
  exact List.length_eq_zero.1 hl

/-- Witness for C4: a zero-row frame holding one (empty) feature column. -/
theorem scorer_empty_input_witness :
    (score_grs ⟨0, [("pe", [])]⟩).nrows = 0
      ∧ (score_grs ⟨0, [("pe", [])]⟩).wf = true
      ∧ (score_grs ⟨0, [("pe", [])]⟩).get "GRS" = []
      ∧ (score_grs ⟨0, [("pe", [])]⟩).hasCol "GRS" = true
      ∧ (score_grs ⟨0, [("pe", [])]⟩).hasCol "FM_score" = true
      ∧ (score_grs ⟨0, [("pe", [])]⟩).hasCol "Q_score" = true
      ∧ (score_grs ⟨0, [("pe", [])]⟩).hasCol "VG_score" = true
      ∧ (score_grs ⟨0, [("pe", [])]⟩).hasCol "IT_score" = true
      ∧ (score_grs ⟨0, [("pe", [])]⟩).hasCol "TC_score" = true :=
  scorer_empty_input ⟨0, [("pe", [])]⟩ (by decide) (by decide)

/-- C6: on the fully defined column `[10, 20, 10, 30]`, `pct_rank` yields
exactly `[37.5, 75, 37.5, 100]`: average-tie ranks `[1.5, 3, 1.5, 4]`
(rank 1 = smallest) scaled by `rank / 4 × 100`. -/
theorem pct_rank_tie_example :
    pct_rank [some 10, some 20, some 10, some 30]
        = [some (75/2), some 75, some (75/2), some 100]
      ∧ rankdata_avg [10, 20, 10, 30] = [3/2, 3, 3/2, 4] := by
  exact ⟨by decide, by decide⟩

/-- C7: every defined entry of the `GRS` column lies in `[0, 100]` and is an
exact multiple of one tenth (one decimal place). -/
theorem grs_bounds_and_decimal (df : Frame) (i : ℕ) (x : ℚ)
    (hx : ((score_grs df).get "GRS").getD i none = some x) :
    0 ≤ x ∧ x ≤ 100 ∧ ∃ k : ℤ, x * 10 = (k : ℚ) := by
  by_cases h : i < df.nrows
  · have he := score_grs_GRS_entry df i h
    rw [hx] at he
    have hx2 := Option.some.inj he
    rw [hx2]
    exact ⟨clip_round_nonneg _, clip_round_le _, clip_round1_decimal _⟩
  · exfalso
    have hnone : ((score_grs df).get "GRS").getD i none = none := by
      refine getD_of_length_le _ _ ?_
      rw [score_grs_GRS_length]
      omega
    rw [hnone] at hx
    exact Option.noConfusion hx

/-- Witness for C7 at a concrete one-row frame: its GRS entry `30` is in
bounds and a multiple of one tenth. -/
theorem grs_bounds_and_decimal_witness :
    0 ≤ (30 : ℚ) ∧ (30 : ℚ) ≤ 100 ∧ ∃ k : ℤ, (30 : ℚ) * 10 = (k : ℚ) :=
  grs_bounds_and_decimal ⟨1, [("rev_yoy", [some 1])]⟩ 0 30 (by decide)

/-- C3 counterexample: for the one-observation price series `[1]`,
`SMA100` is undefined at `t = 0`, yet `is_uptrend` is the defined integer
`0` there — not undefined as the claim states. -/
theorem is_uptrend_not_nan_when_sma_nan :
    (rollingMean 100 [some 1]).getD 0 none = none
      ∧ is_uptrend [some 1] = [0] := by
  exact ⟨by decide, by decide⟩

/-- C3 (amended): `is_uptrend` is an integer column with no undefined
entries — `astype(int)` leaves no NaN: the entry is `0` whenever
`sma_100[t]` is undefined (a comparison with NaN is false), and otherwise
is the 0/1 indicator of `price[t] > sma_100[t]`. -/
theorem is_uptrend_int_column (prices : Col) :
    (is_uptrend prices).length = prices.length
      ∧ (∀ t, t < prices.length →
          (rollingMean 100 prices).getD t none = none →
            (is_uptrend prices).getD t 0 = 0)
      ∧ (∀ t p m, prices.getD t none = some p →
          (rollingMean 100 prices).getD t none = some m →
            (is_uptrend prices).getD t 0 = if m < p then 1 else 0) := by
  have hlm : (rollingMean 100 prices).length = prices.length := by
    simp [rollingMean]
  have hlen : (is_uptrend prices).length = prices.length := by
    simp [is_uptrend, List.length_zip, hlm]
  have key : ∀ t, t < prices.length →
      (is_uptrend prices).getD t 0
        = if gtNaN (prices.getD t none) ((rollingMean 100 prices).getD t none)
          then 1 else 0 := by
    intro t ht
    have ht2 : t < (is_uptrend prices).length := by rw [hlen]; exact ht
    have htz : t < (prices.zip (rollingMean 100 prices)).length := by
      simpa [is_uptrend] using ht2
    have htm : t < (rollingMean 100 prices).length := by rw [hlm]; exact ht
    rw [List.getD_eq_getElem _ _ ht2]
    rw [List.getD_eq_getElem _ _ ht, List.getD_eq_getElem _ _ htm]
    simp [is_uptrend, List.getElem_zip]
  refine ⟨hlen, ?_, ?_⟩
  · intro t ht hm
    rw [key t ht, hm]
    cases hp : prices.getD t none <;> simp [gtNaN]
  · intro t p m hp hm
    have ht : t < prices.length := by
      by_contra hc
      rw [getD_of_length_le _ _ (by omega)] at hp
      exact Option.noConfusion hp
    rw [key t ht, hp, hm]
    simp [gtNaN, gt_iff_lt]

/-- Witness for C3's amended claim: on the 100-observation ascending price
series `1..100`, `SMA100` at `t = 99` is `50.5` and the uptrend flag is `1`. -/
theorem is_uptrend_int_column_witness :
    (is_uptrend ((List.range 100).map (fun k => some ((k : ℚ) + 1)))).getD 99 0 = 1 := by
  have h := (is_uptrend_int_column
      ((List.range 100).map (fun k => some ((k : ℚ) + 1)))).2.2 99 100 (101/2)
    (by decide) (by decide)
  rw [h]
  norm_num

/-- C9 counterexample: calling `score_grs` on a one-ticker feature table
leaves the caller's table mutated — afterwards it carries a `GRS` column it
did not have before the call, so it no longer has exactly its original
columns. -/
theorem score_grs_mutates_input :
    score_grs_inputAfterCall ⟨1, [("rev_yoy", [some 1])]⟩ ≠ ⟨1, [("rev_yoy", [some 1])]⟩
      ∧ (score_grs_inputAfterCall ⟨1, [("rev_yoy", [some 1])]⟩).hasCol "GRS" = true
      ∧ (Frame.mk 1 [("rev_yoy", [some 1])]).hasCol "GRS" = false := by
  exact ⟨by decide, by decide, by decide⟩

/-- C9 (amended): `score_grs` mutates its input in place — the caller's
table after the call is the returned frame itself (the score columns are
added to it), and whenever the input lacked a `GRS` column the post-call
input differs from the pre-call input. -/
theorem score_grs_inputAfterCall_spec (t : Frame) :
    score_grs_inputAfterCall t = score_grs t
      ∧ (t.hasCol "GRS" = false → score_grs_inputAfterCall t ≠ t) := by
  refine ⟨rfl, ?_⟩
  intro h heq
  have h1 := (score_grs_hasCol_scores t).1
  rw [score_grs_inputAfterCall] at heq
  rw [heq, h] at h1
  exact Bool.noConfusion h1

/-- Witness for C9's amended claim at a concrete two-row frame. -/
theorem score_grs_inputAfterCall_spec_witness :
    score_grs_inputAfterCall ⟨2, []⟩ ≠ ⟨2, []⟩ :=
  (score_grs_inputAfterCall_spec ⟨2, []⟩).2 (by decide)

/-! ## Winsorization lemmas (for C5) -/

theorem clipVal_none_none (x : ℚ) : clipVal none none x = x := rfl

theorem percentileLinear_nil (q : ℚ) : percentileLinear [] q = none := rfl

theorem percentileLinear_single (v q : ℚ) : percentileLinear [v] q = some v := by
  simp [percentileLinear, sortQ, insertAsc]

theorem filterMap_id_nil_all_none (l : List Val) (h : l.filterMap id = []) :
    ∀ o ∈ l, o = none := by
  intro o ho
  cases o with
  | none => rfl
  | some v =>
    exfalso
    have hv : v ∈ l.filterMap id := List.mem_filterMap.2 ⟨some v, ho, rfl⟩
    rw [h] at hv
    exact List.not_mem_nil _ hv

theorem filterMap_id_single_chars (l : List Val) (v : ℚ)
    (h : l.filterMap id = [v]) : ∀ o ∈ l, o = none ∨ o = some v := by
  induction l with
  | nil => intro o ho; exact absurd ho (List.not_mem_nil o)
  | cons a t ih =>
    intro o ho
    cases a with
    | none =>
      have h2 : t.filterMap id = [v] := h
      rcases List.mem_cons.1 ho with rfl | hot
      · exact Or.inl rfl
      · exact ih h2 o hot
    | some w =>
      have h2 : w :: t.filterMap id = [v] := h
      have hw : w = v := List.head_eq_of_cons_eq h2
      have ht : t.filterMap id = [] := List.tail_eq_of_cons_eq h2
      rcases List.mem_cons.1 ho with rfl | hot
      · exact Or.inr (by rw [hw])
      · exact Or.inl (filterMap_id_nil_all_none t ht o hot)

/-- C5: winsorization (i) on the column `1..100` with bounds `[5, 95]` maps
the minimum to `5.95`, the maximum to `95.05` (linear percentile
interpolation) and keeps interior values, and with the source's default
bounds `[1, 99]` maps them to `1.99` and `99.01`; (ii) preserves
definedness in every position (undefined entries stay undefined); (iii) is
a no-op when fewer than two defined values exist; and (iv) clips every
defined entry to `[lo, hi]`, the lower/upper percentiles of the defined
values. -/
theorem winsorize_spec :
    ((winsorize_series ((List.range 100).map (fun k => some ((k : ℚ) + 1))) 5 95).getD 0 none
          = some (119/20)
      ∧ (winsorize_series ((List.range 100).map (fun k => some ((k : ℚ) + 1))) 5 95).getD 99 none
          = some (1901/20)
      ∧ (winsorize_series ((List.range 100).map (fun k => some ((k : ℚ) + 1))) 5 95).getD 50 none
          = some 51
      ∧ (∀ x ∈ (winsorize_series ((List.range 100).map (fun k => some ((k : ℚ) + 1))) 5 95).filterMap id,
          119/20 ≤ x ∧ x ≤ 1901/20)
      ∧ (winsorize_series ((List.range 100).map (fun k => some ((k : ℚ) + 1))) 1 99).getD 0 none
          = some (199/100)
      ∧ (winsorize_series ((List.range 100).map (fun k => some ((k : ℚ) + 1))) 1 99).getD 99 none
          = some (9901/100))
    ∧ (∀ (s : Col) (lb ub : ℚ) (i : ℕ),
        ((winsorize_series s lb ub).getD i none).isSome = ((s.getD i none)).isSome)
    ∧ (∀ (s : Col) (lb ub : ℚ), (s.filterMap id).length < 2 →
        winsorize_series s lb ub = s)
    ∧ (∀ (s : Col) (lb ub : ℚ) (i : ℕ) (x lo hi : ℚ),
        percentileLinear (s.filterMap id) lb = some lo →
        percentileLinear (s.filterMap id) ub = some hi →
        s.getD i none = some x →
        (winsorize_series s lb ub).getD i none = some (min (max x lo) hi)) := by
  have wdef : ∀ (s : Col) (lb ub : ℚ), winsorize_series s lb ub
      = s.map (Option.map (clipVal (percentileLinear (s.filterMap id) lb)
          (percentileLinear (s.filterMap id) ub))) := fun _ _ _ => rfl
  refine ⟨⟨by decide, by decide, by decide, by decide, by decide, by decide⟩, ?_, ?_, ?_⟩
  · intro s lb ub i
    rw [wdef, getD_map_opt]
    cases s.getD i none <;> rfl
  · intro s lb ub hlen
    rw [wdef]
    match hd : s.filterMap id with
    | [] =>
      rw [percentileLinear_nil, percentileLinear_nil]
      have hid : Option.map (clipVal none none) = id := by
        funext o
        cases o <;> rfl
      rw [hid, List.map_id]
    | [v] =>
      rw [percentileLinear_single, percentileLinear_single]
      have hfix : ∀ o ∈ s, Option.map (clipVal (some v) (some v)) o = o := by
        intro o ho
        rcases filterMap_id_single_chars s v hd o ho with rfl | rfl
        · rfl
        · simp [clipVal_some]
      exact (List.map_congr_left hfix).trans (List.map_id s)
    | v :: w :: t =>
      exfalso
      rw [hd] at hlen
      simp only [List.length_cons] at hlen
      omega
  · intro s lb ub i x lo hi hlo hhi hx
    rw [wdef, hlo, hhi, getD_map_opt, hx]
    rw [Option.map_some', clipVal_some]

/-- Witness for C5 (the no-op conjunct) at the column `[5, NaN]`, which has
a single defined value. -/
theorem winsorize_spec_witness :
    winsorize_series [some 5, none] 1 99 = [some 5, none] :=
  winsorize_spec.2.2.1 [some 5, none] 1 99 (by decide)

/-! ## Rolling-window lemmas (for C10) -/

theorem getD_map_some (ps : List ℚ) (j : ℕ) :
    (ps.map some).getD j none
      = if j < ps.length then some (ps.getD j 0) else none := by
  by_cases h : j < ps.length
  · rw [if_pos h]
    rw [List.getD_eq_getElem _ _ (by simpa using h), List.getD_eq_getElem _ _ h]
    simp
  · rw [if_neg h]
    exact getD_of_length_le _ _ (by simp [Nat.le_of_not_lt h])

theorem pctChange_length (ps : List ℚ) :
    (pctChange (ps.map some)).length = ps.length := by
  simp [pctChange]

theorem pctChange_map_some (ps : List ℚ) (t : ℕ) (h : t < ps.length) :
    (pctChange (ps.map some)).getD t none
      = if t = 0 then none
        else some (ps.getD t 0 / ps.getD (t - 1) 0 - 1) := by
  unfold pctChange
  rw [getD_map_range _ _ _ (by simpa using h)]
  by_cases ht : t = 0
  · rw [if_pos ht, if_pos ht]
  · rw [if_neg ht, if_neg ht]
    rw [getD_map_some, getD_map_some, if_pos h, if_pos (by omega)]

theorem drop_take_window (l : Col) (a w : ℕ) (h : a + w ≤ l.length) :
    (l.drop a).take w = (List.range w).map (fun k => l.getD (a + k) none) := by
  apply List.ext_getElem?
  intro i
  by_cases hi : i < w
  · rw [List.getElem?_take_of_lt hi, List.getElem?_drop]
    have hai : a + i < l.length := by omega
    rw [List.getElem?_map, List.getElem?_range hi, List.getElem?_eq_getElem hai]
    rw [Option.map_some']
    rw [List.getD_eq_getElem _ _ hai]
  · have h1 : (List.take w (List.drop a l)).length ≤ i := by
      have h2 := List.length_take_le w (l.drop a)
      omega
    rw [List.getElem?_eq_none h1, List.getElem?_map,
      List.getElem?_eq_none (by simpa using Nat.le_of_not_lt hi), Option.map_none']

theorem filterMap_id_map_some (l : List ℚ) : (l.map some).filterMap id = l := by
  induction l with
  | nil => rfl
  | cons x t ih => simp [ih]

/-- C10: on a fully defined price series, the squared 20-day volatility
column (i) has one entry per price, (ii) has an undefined first daily
return, (iii) is defined at `t` exactly when 21 observations exist
(`t ≥ 20`), and (iv) there equals the `ddof = 1` sample variance of the
trailing 20 daily returns `price[j]/price[j-1] − 1`, times `252` (the
square of `std · √252`); and (v) on a 20-element window the sample
variance divides the squared deviations by `19 = n − 1`. -/
theorem volatility_20d_spec (ps : List ℚ) :
    (vol20d_sq (ps.map some)).length = ps.length
    ∧ (0 < ps.length → (pctChange (ps.map some)).getD 0 none = none)
    ∧ (∀ t, t < ps.length →
        (((vol20d_sq (ps.map some)).getD t none).isSome = true ↔ 20 ≤ t))
    ∧ (∀ t, 20 ≤ t → t < ps.length →
        (vol20d_sq (ps.map some)).getD t none
          = some (sampleVar ((List.range 20).map (fun k =>
              ps.getD (t - 19 + k) 0 / ps.getD (t - 20 + k) 0 - 1)) * 252))
    ∧ (∀ xs : List ℚ, xs.length = 20 →
        sampleVar xs = (xs.map (fun x => (x - xs.sum / 20) ^ 2)).sum / 19) := by
  have hCP : (pctChange (ps.map some)).length = ps.length := pctChange_length ps
  have hval : ∀ t, 20 ≤ t → t < ps.length →
      (vol20d_sq (ps.map some)).getD t none
        = some (sampleVar ((List.range 20).map (fun k =>
            ps.getD (t - 19 + k) 0 / ps.getD (t - 20 + k) 0 - 1)) * 252) := by
    intro t h20 hn
    have hCt : t < (pctChange (ps.map some)).length := by rw [hCP]; exact hn
    unfold vol20d_sq
    rw [getD_map_opt]
    unfold rollingVarS
    rw [getD_map_range _ _ _ hCt]
    rw [if_neg (by omega)]
    have ha : t + 1 - 20 = t - 19 := by omega
    rw [ha]
    rw [drop_take_window _ _ _ (by omega)]
    have hwin : (List.range 20).map
          (fun k => (pctChange (ps.map some)).getD (t - 19 + k) none)
        = ((List.range 20).map (fun k =>
            ps.getD (t - 19 + k) 0 / ps.getD (t - 20 + k) 0 - 1)).map some := by
      rw [List.map_map]
      apply List.map_congr_left
      intro k hk
      have hk20 : k < 20 := List.mem_range.1 hk
      rw [pctChange_map_some _ _ (by omega), if_neg (by omega)]
      have : t - 19 + k - 1 = t - 20 + k := by omega
      rw [this]
      rfl
    rw [hwin]
    have hall : (((List.range 20).map (fun k =>
          ps.getD (t - 19 + k) 0 / ps.getD (t - 20 + k) 0 - 1)).map some).all
            (fun v => v.isSome) = true := by
      simp
    rw [if_pos hall, filterMap_id_map_some, Option.map_some']
  refine ⟨?_, ?_, ?_, hval, ?_⟩
  · simp [vol20d_sq, rollingVarS, hCP]
  · intro h0
    unfold pctChange
    rw [getD_map_range _ _ _ (by simpa using h0)]
    rw [if_pos rfl]
  · intro t ht
    constructor
    · intro hs
      by_contra hlt
      have h19 : t < 20 := by omega
      have hnone : (vol20d_sq (ps.map some)).getD t none = none := by
        have hCt : t < (pctChange (ps.map some)).length := by rw [hCP]; exact ht
        unfold vol20d_sq
        rw [getD_map_opt]
        unfold rollingVarS
        rw [getD_map_range _ _ _ hCt]
        by_cases hw : t + 1 < 20
        · rw [if_pos hw]
          rfl
        · have ht19 : t = 19 := by omega
          rw [if_neg hw]
          have ha : t + 1 - 20 = 0 := by omega
          rw [ha, drop_take_window _ _ _ (by rw [hCP]; omega)]
          have hfail : ((List.range 20).map
                (fun k => (pctChange (ps.map some)).getD (0 + k) none)).all
                  (fun v => v.isSome) = false := by
            refine Bool.eq_false_iff.2 ?_
            intro hall
            have h0mem := List.all_eq_true.1 hall
              ((pctChange (ps.map some)).getD (0 + 0) none)
              (List.mem_map.2 ⟨0, List.mem_range.2 (by omega), rfl⟩)
            rw [pctChange_map_some _ _ (by omega)] at h0mem
            simp at h0mem
          simp only [hfail]
          rfl
      rw [hnone] at hs
      exact Bool.noConfusion hs
    · intro h20
      rw [hval t h20 ht]
      rfl
  · intro xs h20
    unfold sampleVar
    rw [h20]
    norm_num

/-- Witness for C10 at the constant 21-observation price series `1, …, 1`
(every daily return is `0`): the squared volatility at `t = 20` is the
sample variance of twenty zero returns times 252, i.e. `0`. -/
theorem volatility_20d_spec_witness :
    (vol20d_sq ((List.replicate 21 (1:ℚ)).map some)).getD 20 none
      = some (sampleVar ((List.range 20).map (fun k =>
          (List.replicate 21 (1:ℚ)).getD (20 - 19 + k) 0
            / (List.replicate 21 (1:ℚ)).getD (20 - 20 + k) 0 - 1)) * 252) :=
  (volatility_20d_spec (List.replicate 21 (1:ℚ))).2.2.2.1 20 (by decide) (by decide)

/-! ## Strict-ladder rank computation (for C8) -/

theorem winsorize_series_eq (s : Col) (lb ub : ℚ) :
    winsorize_series s lb ub
      = s.map (Option.map (clipVal (percentileLinear (s.filterMap id) lb)
          (percentileLinear (s.filterMap id) ub))) := rfl

theorem sortQ_of_sorted5 (a b c d e : ℚ) (hab : a ≤ b) (hbc : b ≤ c)
    (hcd : c ≤ d) (hde : d ≤ e) :
    sortQ [a, b, c, d, e] = [a, b, c, d, e] := by
  simp [sortQ, insertAsc, hab, hbc, hcd, hde]

theorem percentileLinear_lo5 (a b c d e : ℚ) (hab : a ≤ b) (hbc : b ≤ c)
    (hcd : c ≤ d) (hde : d ≤ e) :
    percentileLinear [a, b, c, d, e] 1 = some (a + (1/25) * (b - a)) := by
  unfold percentileLinear
  rw [sortQ_of_sorted5 a b c d e hab hbc hcd hde]
  have hfl : ⌊((((5:ℕ) : ℚ) - 1) * 1 / 100)⌋ = 0 := by
    rw [Int.floor_eq_iff]
    constructor <;> norm_num
  simp only [List.isEmpty_cons, Bool.false_eq_true, if_false, List.length_cons,
    List.length_nil]
  norm_num [hfl]

theorem percentileLinear_hi5 (a b c d e : ℚ) (hab : a ≤ b) (hbc : b ≤ c)
    (hcd : c ≤ d) (hde : d ≤ e) :
    percentileLinear [a, b, c, d, e] 99 = some (d + (24/25) * (e - d)) := by
  unfold percentileLinear
  rw [sortQ_of_sorted5 a b c d e hab hbc hcd hde]
  have hfl : ⌊((((5:ℕ) : ℚ) - 1) * 99 / 100)⌋ = 3 := by
    rw [Int.floor_eq_iff]
    constructor <;> norm_num
  simp only [List.isEmpty_cons, Bool.false_eq_true, if_false, List.length_cons,
    List.length_nil]
  rw [hfl]
  have g3 : ([a, b, c, d, e] : List ℚ).getD (Int.toNat 3) 0 = d := rfl
  have g4 : ([a, b, c, d, e] : List ℚ).getD
      ((Int.toNat 3 + 1) ⊓ (0 + 1 + 1 + 1 + 1 + 1 - 1)) 0 = e := rfl
  rw [g3, g4]
  have ht : Int.toNat 3 = 3 := rfl
  rw [ht]
  norm_num

theorem pct_rank_winsorize_ladder (a b c d e : ℚ)
    (hab : a < b) (hbc : b < c) (hcd : c < d) (hde : d < e) :
    pct_rank (winsorize_series [some a, some b, some c, some d, some e] 1 99)
      = ladderCol := by
  have hlo := percentileLinear_lo5 a b c d e hab.le hbc.le hcd.le hde.le
  have hhi := percentileLinear_hi5 a b c d e hab.le hbc.le hcd.le hde.le
  set lo := a + (1/25) * (b - a) with hlodef
  set hi := d + (24/25) * (e - d) with hhidef
  have h1 : a ≤ lo := by rw [hlodef]; linarith
  have h2 : lo < b := by rw [hlodef]; linarith
  have h3 : d < hi := by rw [hhidef]; linarith
  have h4 : hi ≤ e := by rw [hhidef]; linarith
  have hlohi : lo ≤ hi := by linarith
  have hW : winsorize_series [some a, some b, some c, some d, some e] 1 99
      = [some lo, some b, some c, some d, some hi] := by
    rw [winsorize_series_eq]
    have hfm : (([some a, some b, some c, some d, some e] : Col)).filterMap id
        = [a, b, c, d, e] := rfl
    rw [hfm, hlo, hhi]
    simp only [List.map_cons, List.map_nil, Option.map_some', clipVal_some]
    have e1 : min (max a lo) hi = lo := by rw [max_eq_right h1, min_eq_left hlohi]
    have e2 : min (max b lo) hi = b := by
      rw [max_eq_left h2.le, min_eq_left (by linarith)]
    have e3 : min (max c lo) hi = c := by
      rw [max_eq_left (by linarith), min_eq_left (by linarith)]
    have e4 : min (max d lo) hi = d := by
      rw [max_eq_left (by linarith), min_eq_left h3.le]
    have e5 : min (max e lo) hi = hi := by
      rw [max_eq_left (by linarith), min_eq_right h4]
    rw [e1, e2, e3, e4, e5]
  rw [hW]
  have q1 : lo < b := h2
  have q2 : b < c := hbc
  have q3 : c < d := hcd
  have q4 : d < hi := h3
  have t1 : lo < c := by linarith
  have t2 : lo < d := by linarith
  have t3 : lo < hi := by linarith
  have t4 : b < d := by linarith
  have t5 : b < hi := by linarith
  have t6 : c < hi := by linarith
  have hnonan : (([some lo, some b, some c, some d, some hi] : Col)).any
      (fun v => v.isNone) = false := rfl
  unfold pct_rank rankdata
  rw [hnonan]
  have hr : rankdata_avg [lo, b, c, d, hi] = [1, 2, 3, 4, 5] := by
    unfold rankdata_avg
    simp only [List.map_cons, List.map_nil, List.countP_cons, List.countP_nil,
      decide_eq_true_eq]
    norm_num [q1, q2, q3, q4, t1, t2, t3, t4, t5, t6,
      q1.ne, q1.ne', q2.ne, q2.ne', q3.ne, q3.ne', q4.ne, q4.ne',
      t1.ne, t1.ne', t2.ne, t2.ne', t3.ne, t3.ne', t4.ne, t4.ne',
      t5.ne, t5.ne', t6.ne, t6.ne',
      q1.asymm, q2.asymm, q3.asymm, q4.asymm, t1.asymm, t2.asymm,
      t3.asymm, t4.asymm, t5.asymm, t6.asymm]
  have hfm2 : (([some lo, some b, some c, some d, some hi] : Col)).filterMap id
      = [lo, b, c, d, hi] := rfl
  simp only [Bool.false_eq_true, if_false, hfm2, hr]
  norm_num [ladderCol]

theorem featureRank_set_ne (df : Frame) (n : String) (c : Col) (feat : String)
    (dir : Int) (h : (feat == n) = false) :
    featureRank (df.set n c) feat dir = featureRank df feat dir := by
  unfold featureRank
  rw [Frame.hasCol_set, h, Bool.false_or, Frame.get_set_ne _ _ _ _ h,
    Frame.nrows_set]

theorem featureRank_ladder (df : Frame) (feat : String) (dir : Int)
    (hcol : df.hasCol feat = true)
    (hdom : if dir = -1 then StrictDesc (df.get feat) else StrictAsc (df.get feat)) :
    featureRank df feat dir = ladderCol := by
  unfold featureRank
  rw [if_pos hcol]
  by_cases hd : dir = -1
  · rw [if_pos hd] at hdom
    obtain ⟨a, b, c, d, e, hl, h1, h2, h3, h4⟩ := hdom
    rw [hl]
    simp only [hd, reduceIte, List.map_cons, List.map_nil, Option.map_some']
    exact pct_rank_winsorize_ladder (-a) (-b) (-c) (-d) (-e)
      (by linarith) (by linarith) (by linarith) (by linarith)
  · rw [if_neg hd] at hdom
    obtain ⟨a, b, c, d, e, hl, h1, h2, h3, h4⟩ := hdom
    rw [hl]
    simp only [hd, if_false]
    exact pct_rank_winsorize_ladder a b c d e h1 h2 h3 h4

theorem rowMean_replicate_some (k : ℕ) (hk : k ≠ 0) (v : ℚ) :
    rowMean (List.replicate k (some v)) = some v := by
  have hf : (List.replicate k (some v) : List Val).filterMap id
      = List.replicate k v := by
    induction k with
    | zero => rfl
    | succ n ih => simp [List.replicate_succ, ih]
  have rmeq : ∀ vals : List Val, rowMean vals
      = if (vals.filterMap id).length = 0 then none
        else some ((vals.filterMap id).sum / ((vals.filterMap id).length : ℚ)) :=
    fun _ => rfl
  rw [rmeq, hf, List.length_replicate, if_neg hk, List.sum_replicate, nsmul_eq_mul]
  congr 1
  exact mul_div_cancel_left₀ v (Nat.cast_ne_zero.2 hk)

theorem meanAcross_replicate_ladder (k : ℕ) (hk : k ≠ 0) :
    meanAcross (List.replicate k ladderCol) 5 = ladderCol := by
  unfold meanAcross
  rw [show List.range 5 = [0, 1, 2, 3, 4] from rfl]
  simp only [List.map_cons, List.map_nil, List.map_replicate]
  rw [show (ladderCol.getD 0 none) = some 20 from rfl,
      show (ladderCol.getD 1 none) = some 40 from rfl,
      show (ladderCol.getD 2 none) = some 60 from rfl,
      show (ladderCol.getD 3 none) = some 80 from rfl,
      show (ladderCol.getD 4 none) = some 100 from rfl]
  rw [rowMean_replicate_some k hk, rowMean_replicate_some k hk,
      rowMean_replicate_some k hk, rowMean_replicate_some k hk,
      rowMean_replicate_some k hk]
  rfl

theorem componentScore_ladder (df : Frame) (features : List (String × Int))
    (h5 : df.nrows = 5) (hne : features.length ≠ 0)
    (hall : ∀ p ∈ features, featureRank df p.1 p.2 = ladderCol) :
    componentScore df features = ladderCol := by
  unfold componentScore
  have hmap : ∀ (l : List (String × Int)),
      (∀ p ∈ l, featureRank df p.1 p.2 = ladderCol) →
      l.map (fun p => featureRank df p.1 p.2) = List.replicate l.length ladderCol := by
    intro l
    induction l with
    | nil => intro _; rfl
    | cons q t ih =>
      intro hall2
      simp only [List.map_cons, List.length_cons, List.replicate_succ]
      rw [hall2 q (by simp), ih (fun p hp => hall2 p (by simp [hp]))]
  rw [hmap features hall, h5]
  exact meanAcross_replicate_ladder _ hne

set_option maxHeartbeats 4000000 in
/-- C8: on every 5-ticker feature table in which each ticker strictly
dominates its predecessor on every feature in the directionally correct
sense, the GRS of each ticker strictly exceeds the GRS of its predecessor
(the five ladder scores are in fact `20, 40, 60, 80, 100`). -/
theorem score_monotonic_ladder (df : Frame) (H : DominanceLadder df) :
    ∀ i, i < 4 → ∃ x y,
      ((score_grs df).get "GRS").getD i none = some x
      ∧ ((score_grs df).get "GRS").getD (i + 1) none = some y
      ∧ x < y := by
  obtain ⟨h5, hdom⟩ := H
  have hallF : ∀ cf ∈ FEATURE_MAPPING, ∀ p ∈ cf.2,
      featureRank df p.1 p.2 = ladderCol := by
    intro cf hcf p hp
    obtain ⟨hcol, hd⟩ := hdom cf hcf p hp
    exact featureRank_ladder df p.1 p.2 hcol hd
  have hFM : (score_grs df).get "FM_score" = ladderCol := by
    unfold score_grs
    simp only [FEATURE_MAPPING, WEIGHTS, List.foldl_cons, List.foldl_nil,
      List.map_cons, List.map_nil, scoreName_FM, scoreName_Q, scoreName_VG,
      scoreName_IT, scoreName_TC]
    rw [Frame.get_set_ne _ _ _ _ (by decide), Frame.get_set_ne _ _ _ _ (by decide),
        Frame.get_set_ne _ _ _ _ (by decide), Frame.get_set_ne _ _ _ _ (by decide),
        Frame.get_set_ne _ _ _ _ (by decide), Frame.get_set_ne _ _ _ _ (by decide),
        Frame.get_set_self]
    refine componentScore_ladder _ _ (by simp [Frame.nrows_set, h5]) (by decide) ?_
    intro p hp
    fin_cases hp <;>
      · rw [featureRank_set_ne _ _ _ _ _ (by decide)]
        exact hallF ("FM", [("rev_yoy", 1), ("gm_delta", 1), ("om_delta", 1),
          ("fcf_delta", 1)]) (by decide) _ (by decide)
  have hQ : (score_grs df).get "Q_score" = ladderCol := by
    unfold score_grs
    simp only [FEATURE_MAPPING, WEIGHTS, List.foldl_cons, List.foldl_nil,
      List.map_cons, List.map_nil, scoreName_FM, scoreName_Q, scoreName_VG,
      scoreName_IT, scoreName_TC]
    rw [Frame.get_set_ne _ _ _ _ (by decide), Frame.get_set_ne _ _ _ _ (by decide),
        Frame.get_set_ne _ _ _ _ (by decide), Frame.get_set_ne _ _ _ _ (by decide),
        Frame.get_set_ne _ _ _ _ (by decide), Frame.get_set_self]
    refine componentScore_ladder _ _ (by simp [Frame.nrows_set, h5]) (by decide) ?_
    intro p hp
    fin_cases hp <;>
      · rw [featureRank_set_ne _ _ _ _ _ (by decide),
            featureRank_set_ne _ _ _ _ _ (by decide)]
        exact hallF ("Q", [("roa_proxy", 1), ("cash_conversion", 1),
          ("accruals_proxy", -1)]) (by decide) _ (by decide)
  have hVG : (score_grs df).get "VG_score" = ladderCol := by
    unfold score_grs
    simp only [FEATURE_MAPPING, WEIGHTS, List.foldl_cons, List.foldl_nil,
      List.map_cons, List.map_nil, scoreName_FM, scoreName_Q, scoreName_VG,
      scoreName_IT, scoreName_TC]
    rw [Frame.get_set_ne _ _ _ _ (by decide), Frame.get_set_ne _ _ _ _ (by decide),
        Frame.get_set_ne _ _ _ _ (by decide), Frame.get_set_ne _ _ _ _ (by decide),
        Frame.get_set_self]
    refine componentScore_ladder _ _ (by simp [Frame.nrows_set, h5]) (by decide) ?_
    intro p hp
    fin_cases hp <;>
      · rw [featureRank_set_ne _ _ _ _ _ (by decide),
            featureRank_set_ne _ _ _ _ _ (by decide),
            featureRank_set_ne _ _ _ _ _ (by decide)]
        exact hallF ("VG", [("pe", -1), ("ev_sales", -1), ("ev_sales_zscore", -1),
          ("peg_proxy", -1)]) (by decide) _ (by decide)
  have hIT : (score_grs df).get "IT_score" = ladderCol := by
    unfold score_grs
    simp only [FEATURE_MAPPING, WEIGHTS, List.foldl_cons, List.foldl_nil,
      List.map_cons, List.map_nil, scoreName_FM, scoreName_Q, scoreName_VG,
      scoreName_IT, scoreName_TC]
    rw [Frame.get_set_ne _ _ _ _ (by decide), Frame.get_set_ne _ _ _ _ (by decide),
        Frame.get_set_ne _ _ _ _ (by decide), Frame.get_set_self]
    refine componentScore_ladder _ _ (by simp [Frame.nrows_set, h5]) (by decide) ?_
    intro p hp
    fin_cases hp <;>
      · rw [featureRank_set_ne _ _ _ _ _ (by decide),
            featureRank_set_ne _ _ _ _ _ (by decide),
            featureRank_set_ne _ _ _ _ _ (by decide),
            featureRank_set_ne _ _ _ _ _ (by decide)]
        exact hallF ("IT", [("sector_rs_6m", 1), ("sector_rs_12m", 1),
          ("sector_above_50dma", 1), ("sector_above_200dma", 1)]) (by decide) _ (by decide)
  have hTC : (score_grs df).get "TC_score" = ladderCol := by
    unfold score_grs
    simp only [FEATURE_MAPPING, WEIGHTS, List.foldl_cons, List.foldl_nil,
      List.map_cons, List.map_nil, scoreName_FM, scoreName_Q, scoreName_VG,
      scoreName_IT, scoreName_TC]
    rw [Frame.get_set_ne _ _ _ _ (by decide), Frame.get_set_ne _ _ _ _ (by decide),
        Frame.get_set_self]
    refine componentScore_ladder _ _ (by simp [Frame.nrows_set, h5]) (by decide) ?_
    intro p hp
    fin_cases hp <;>
      · rw [featureRank_set_ne _ _ _ _ _ (by decide),
            featureRank_set_ne _ _ _ _ _ (by decide),
            featureRank_set_ne _ _ _ _ _ (by decide),
            featureRank_set_ne _ _ _ _ _ (by decide),
            featureRank_set_ne _ _ _ _ _ (by decide)]
        exact hallF ("TC", [("above_50dma", 1), ("above_100dma", 1),
          ("above_200dma", 1), ("6m_momentum", 1), ("max_drawdown_1y", 1)])
          (by decide) _ (by decide)
  intro i hi
  have hGi := score_grs_GRS_entry df i (by rw [h5]; omega)
  have hGi1 := score_grs_GRS_entry df (i + 1) (by rw [h5]; omega)
  rw [hFM, hQ, hVG, hIT, hTC] at hGi hGi1
  refine ⟨_, _, hGi, hGi1, ?_⟩
  interval_cases i <;> decide

/-- Witness for C8: the explicit dominance ladder `ladderFrame`, whose
first two GRS values are `20 < 40`. -/
theorem score_monotonic_ladder_witness :
    ∃ x y, ((score_grs ladderFrame).get "GRS").getD 0 none = some x
      ∧ ((score_grs ladderFrame).get "GRS").getD 1 none = some y
      ∧ x < y := by
  refine score_monotonic_ladder ladderFrame ⟨rfl, ?_⟩ 0 (by decide)
  intro cf hcf p hp
  fin_cases hcf <;> fin_cases hp <;>
    refine ⟨by decide, ?_⟩ <;>
    first
      | (rw [if_neg (by decide)]
         exact ⟨1, 2, 3, 4, 5, by decide, by decide, by decide, by decide, by decide⟩)
      | (rw [if_pos (by decide)]
         exact ⟨5, 4, 3, 2, 1, by decide, by decide, by decide, by decide, by decide⟩)

